import Mathlib

/-!
Verification development for the agenticAI agent core
(src/agenticAI: agent.py, actions/, tools/base.py, mcp/).

The Python code is shallowly embedded: Python dicts become association
lists over a JSON-like value type, exceptions become `Except`, and the
external collaborators (the LLM provider, the JSON library `json.loads`,
the pydantic `AgentAction(**data)` constructor, and the missing
`actions/executor.py`) become explicit function parameters, so every
claim quantifies over their possible behaviours.
-/

set_option maxRecDepth 4000

/-- A JSON-like universe for the `Any`-typed Python values that flow
through the agent: parsed JSON, tool arguments, tool results and
protocol payloads.  Floats are not modelled (no claim involves them);
numbers are integers. -/
inductive JsonVal where
  | null
  | bool (b : Bool)
  | num (n : Int)
  | str (s : String)
  | arr (elems : List JsonVal)
  | obj (fields : List (String × JsonVal))

mutual

/-- Python `repr` of a parsed-JSON value, as used inside `str` of a
container (`repr` quoting of special characters inside strings is not
modelled; no claim inspects those renderings). -/
def pyRepr : JsonVal → String
  | JsonVal.null => "None"
  | JsonVal.bool true => "True"
  | JsonVal.bool false => "False"
  | JsonVal.num n => toString n
  | JsonVal.str s => "\x27" ++ s ++ "\x27"
  | JsonVal.arr xs => "[" ++ String.intercalate ", " (pyReprList xs) ++ "]"
  | JsonVal.obj kvs => "\x7b" ++ String.intercalate ", " (pyReprFields kvs) ++ "\x7d"

/-- Renders each element of a Python list for `pyRepr`. -/
def pyReprList : List JsonVal → List String
  | [] => []
  | v :: vs => pyRepr v :: pyReprList vs

/-- Renders each key/value pair of a Python dict for `pyRepr`. -/
def pyReprFields : List (String × JsonVal) → List String
  | [] => []
  | (k, v) :: kvs => ("\x27" ++ k ++ "\x27: " ++ pyRepr v) :: pyReprFields kvs

end

/-- Python `str()` of a parsed-JSON value: a string renders as itself,
everything else as its `repr`. -/
def pyStr : JsonVal → String
  | JsonVal.str s => s
  | v => pyRepr v

/-- Python `str()` of an optional value, `None` rendering as "None"
(as in an f-string over the result of `dict.get`). -/
def pyShow : Option JsonVal → String
  | none => "None"
  | some v => pyStr v

/-- Python truthiness of the result of a `dict.get` lookup. -/
def pyTruthy : Option JsonVal → Bool
  | none => false
  | some JsonVal.null => false
  | some (JsonVal.bool b) => b
  | some (JsonVal.num n) => n != 0
  | some (JsonVal.str s) => s != ""
  | some (JsonVal.arr xs) => !xs.isEmpty
  | some (JsonVal.obj kvs) => !kvs.isEmpty

/-- `d.get(key)` on a Python dict modelled as an association list
(source dicts never carry duplicate keys, so first-match lookup agrees
with dict lookup). -/
def dictGet (kvs : List (String × JsonVal)) (key : String) : Option JsonVal :=
  (kvs.find? (fun p => p.1 == key)).map (fun p => p.2)

/-- `ActionType` from src/agenticAI/actions/action.py. -/
inductive ActionType where
  | tool_call
  | llm_generate
  | mcp_request
  | conditional
  | loop
  | finish
deriving DecidableEq

/-- `AgentAction` from src/agenticAI/actions/action.py (pydantic model);
`parameters` and `metadata` are `Dict[str, Any]`. -/
structure AgentAction where
  type : ActionType
  name : String
  parameters : List (String × JsonVal)
  description : Option String
  metadata : List (String × JsonVal)

/-- `ActionResult` from src/agenticAI/actions/action.py; `result` is
`Any` with default `None` (`JsonVal.null`). -/
structure ActionResult where
  success : Bool
  result : JsonVal
  error : Option String
  metadata : List (String × JsonVal)

/-- A registered tool (src/agenticAI/tools/base.py `Tool`): its name and
its `execute` coroutine, which either returns a result dict or raises
(the `Except.error` carries `str(e)`). -/
structure Tool where
  name : String
  execute : List (String × JsonVal) → Except String (List (String × JsonVal))

/-- `ToolRegistry._tools` from src/agenticAI/tools/base.py: a dict from
tool name to tool, kept as an insertion-ordered association list. -/
abbrev ToolRegistry := List (String × Tool)

/-- `ToolRegistry.register`: dict assignment `self._tools[tool.name] = tool`
(overwrites in place, else appends). -/
def registerTool : ToolRegistry → Tool → ToolRegistry
  | [], t => [(t.name, t)]
  | (k, old) :: rest, t =>
    if k = t.name then (k, t) :: rest else (k, old) :: registerTool rest t

/-- `ToolRegistry.get`: `self._tools.get(name)`. -/
def getTool (reg : ToolRegistry) (name : String) : Option Tool :=
  (reg.find? (fun p => p.1 == name)).map (fun p => p.2)

/-- Python hashability of a parsed-JSON value: lists and dicts are
unhashable, so using one as a `dict.get` key raises a TypeError. -/
def pyHashable : JsonVal → Bool
  | JsonVal.arr _ => false
  | JsonVal.obj _ => false
  | _ => true

/-- The dict lookup `self._tools.get(name)` (base.py line 114) when the
name argument is an arbitrary Python value (`params.get("name")` may be
`None` or non-string): an unhashable name (a JSON array or object)
raises a TypeError; any other non-string hashable value simply misses
the str-keyed dict. -/
def toolLookup (reg : ToolRegistry) (name : Option JsonVal) :
    Except String (Option Tool) :=
  match name with
  | some (JsonVal.str s) => Except.ok (getTool reg s)
  | some v =>
    if pyHashable v then Except.ok none
    else Except.error "TypeError: unhashable type"
  | none => Except.ok none

/-- `ToolRegistry.execute_tool` from src/agenticAI/tools/base.py lines
124-133: unknown names yield a not-found dict and a raising handler
yields a failure dict with the exception message (the `try` wraps only
`tool.execute`), so for hashable names the function never raises; the
lookup `self.get(name)` sits before the `try`, so an unhashable name
value makes the whole call raise (`Except.error`). -/
def execute_tool (reg : ToolRegistry) (name : Option JsonVal)
    (kwargs : List (String × JsonVal)) : Except String (List (String × JsonVal)) :=
  match toolLookup reg name with
  | Except.error e => Except.error e
  | Except.ok none =>
    Except.ok [("success", JsonVal.bool false),
      ("error", JsonVal.str ("Tool \x27" ++ pyShow name ++ "\x27 not found"))]
  | Except.ok (some t) =>
    match t.execute kwargs with
    | Except.ok d => Except.ok d
    | Except.error e =>
      Except.ok [("success", JsonVal.bool false),
        ("error", JsonVal.str ("Tool execution failed: " ++ e))]

/-- The `function_call` entry of `LLMResponse.metadata` (OpenAI format):
its name and its optional `"arguments"` string (`none` models an absent
key, for which the source supplies the default "\x7b\x7d"). -/
structure FunctionCall where
  name : String
  arguments : Option String

/-- `LLMResponse` from src/agenticAI/llm/base.py restricted to the
fields the action generator reads: `content`, and `functionCall = some fc`
exactly when `response.metadata` is truthy and carries the key
"function_call" (the source checks
`response.metadata and "function_call" in response.metadata`). -/
structure LLMResponse where
  content : String
  functionCall : Option FunctionCall

/-- `ActionGenerator._parse_action_from_content` from
src/agenticAI/actions/generator.py lines 57-68.  `parse` stands for
`json.loads` (`none` = `JSONDecodeError`); `mkAction` stands for the
pydantic constructor `AgentAction(**data)` (`none` = a caught validation
error).  String.trim models `str.strip`. -/
def parseActionFromContent (parse : String → Option JsonVal)
    (mkAction : List (String × JsonVal) → Option AgentAction)
    (content : String) : Option AgentAction :=
  let c := content.trim
  if c.startsWith "\x7b" || c.startsWith "[" then
    match parse c with
    | some (JsonVal.obj kvs) =>
      if (dictGet kvs "type").isSome then mkAction kvs else none
    | _ => none
  else none

/-- `ActionGenerator.generate_from_llm_response` from
src/agenticAI/actions/generator.py lines 16-48, inlining
`_parse_function_args` (lines 50-55: `json.loads` of the arguments
string, `\x7b\x7d` on a caught `JSONDecodeError`).  A structured call
whose arguments parse to a non-object makes the pydantic `AgentAction`
constructor raise (parameters must be a dict), which escapes the
generator: that raise is the `Except.error` case. -/
def generateFromLLMResponse (parse : String → Option JsonVal)
    (mkAction : List (String × JsonVal) → Option AgentAction)
    (response : LLMResponse) : Except String (List AgentAction) :=
  match response.functionCall with
  | some fc =>
    match (parse (fc.arguments.getD "\x7b\x7d")).getD (JsonVal.obj []) with
    | JsonVal.obj kvs =>
      Except.ok [{ type := ActionType.tool_call, name := fc.name, parameters := kvs,
                   description := some ("Call tool: " ++ fc.name), metadata := [] }]
    | _ => Except.error "validation error for AgentAction: parameters is not a valid dict"
  | none =>
    if response.content = "" then Except.ok []
    else
      match parseActionFromContent parse mkAction response.content with
      | some a => Except.ok [a]
      | none =>
        Except.ok [{ type := ActionType.llm_generate, name := "generate",
                     parameters := [("content", JsonVal.str response.content)],
                     description := some "LLM generated content", metadata := [] }]

/-- One entry of the accumulated `results` list of `CodingAgent.run`
(src/agenticAI/agent.py): either an executed `{"action": ..., "result": ...}`
pair (lines 152-155) or a caught iteration error `{"error": ..., "iteration": ...}`
(lines 183-186). -/
inductive RunEntry where
  | actionResult (action : AgentAction) (result : ActionResult)
  | iterError (error : String) (iteration : Nat)

/-- The dictionary returned by `CodingAgent.run`.  The `Finish` return
(agent.py lines 167-172) carries the key `final_message` and no `message`;
the loop-exit return (lines 189-194) carries `message` and no
`final_message`; both carry `success`, `iterations` and `results`. -/
structure RunResult where
  success : Bool
  iterations : Nat
  results : List RunEntry
  finalMessage : Option String
  message : Option String

/-- `CodingAgent._build_context` (agent.py lines 196-206): the last five
history entries rendered as "ROLE: content" joined by blank lines
(`String.toUpper` models `str.upper`). -/
def buildContext (history : List (String × String)) : String :=
  String.intercalate "\n\n"
    ((history.drop (history.length - 5)).map (fun m => m.1.toUpper ++ ": " ++ m.2))

/-- One line of `CodingAgent._format_results_for_llm` (agent.py lines
208-225); `str(...)[:200]` becomes `pyStr`/`String.take 200`. -/
def formatResultLine (p : AgentAction × ActionResult) : String :=
  if p.2.success then
    "Action \x27" ++ p.1.name ++ "\x27 completed successfully. Result: " ++
      (pyStr p.2.result).take 200
  else
    "Action \x27" ++ p.1.name ++ "\x27 failed: " ++
      (match p.2.error with | some e => e | none => "None")

/-- `CodingAgent._format_results_for_llm` (agent.py lines 208-225). -/
def formatResultsForLLM (results : List (AgentAction × ActionResult)) : String :=
  String.intercalate "\n" (results.map formatResultLine)

/-- The inner `for action in actions` loop of `CodingAgent.run` (agent.py
lines 147-172) observed through the `(action, result)` pairs it appends:
each action is executed in order; upon executing an action of type
`FINISH` the loop returns at once (the pair for the finish action itself
is appended first), so the Bool is true exactly when a finish action was
executed and the remaining actions were never dispatched. -/
def execActions (exec : AgentAction → ActionResult) :
    List AgentAction → List (AgentAction × ActionResult) × Bool
  | [] => ([], false)
  | a :: rest =>
    if a.type = ActionType.finish then ([(a, exec a)], true)
    else
      let p := execActions exec rest
      ((a, exec a) :: p.1, p.2)

/-- Converts executed pairs into accumulated `results` entries. -/
def entriesOf (ps : List (AgentAction × ActionResult)) : List RunEntry :=
  ps.map (fun p => RunEntry.actionResult p.1 p.2)

/-- The return value built at loop exit, agent.py lines 189-194. -/
def exitResult (maxIterations iterations : Nat) (results : List RunEntry) : RunResult :=
  { success := decide (iterations < maxIterations)
    iterations := iterations
    results := results
    finalMessage := none
    message := some (if iterations ≥ maxIterations then "Reached max iterations"
                     else "Task completed") }

/-- The `while iterations < max_iterations` loop of `CodingAgent.run`
(agent.py lines 116-194), with `fuel = max_iterations - iterations` as
the structural recursion measure (`agentRun` below instantiates the
invariant `iterations + fuel = maxIterations`, under which `fuel > 0`
is exactly the loop condition).  Parameters stand for the injected
collaborators: `actionsOf` is `ActionGenerator.generate_from_llm_response`
(whose raise is caught by the per-iteration `try`), `exec` is
`ActionExecutor.execute` bound to the workspace path (executor results
never influence control flow in the loop), and `gen` maps the iteration
number and the prompt to the LLM response (`self.llm_provider.generate`).
Verbose printing is I/O only and not modelled. -/
def agentRunAux (actionsOf : LLMResponse → Except String (List AgentAction))
    (exec : AgentAction → ActionResult) (gen : Nat → String → LLMResponse)
    (maxIterations : Nat) :
    Nat → Nat → String → List (String × String) → List RunEntry → RunResult
  | 0, iterations, _, _, results => exitResult maxIterations iterations results
  | fuel + 1, iterations, task, history, results =>
    match actionsOf (gen (iterations + 1)
        (if iterations + 1 = 1 then task else buildContext history)) with
    | Except.error e =>
      exitResult maxIterations (iterations + 1)
        (results ++ [RunEntry.iterError
          ("Error in iteration " ++ toString (iterations + 1) ++ ": " ++ e)
          (iterations + 1)])
    | Except.ok actions =>
      if actions.isEmpty then exitResult maxIterations (iterations + 1) results
      else
        if (execActions exec actions).2 then
          { success := true
            iterations := iterations + 1
            results := results ++ entriesOf (execActions exec actions).1
            finalMessage := some (gen (iterations + 1)
              (if iterations + 1 = 1 then task else buildContext history)).content
            message := none }
        else
          agentRunAux actionsOf exec gen maxIterations fuel (iterations + 1)
            (formatResultsForLLM (execActions exec actions).1)
            (history ++ [("assistant", (gen (iterations + 1)
              (if iterations + 1 = 1 then task else buildContext history)).content)])
            (results ++ entriesOf (execActions exec actions).1)

/-- `CodingAgent.run` (agent.py lines 92-194) on a freshly constructed
agent, after the `max_iterations or config.agent.max_iterations` default
has been resolved to `maxIterations`: the initial user message is
appended to the history and the loop starts at `iterations = 0`. -/
def agentRun (actionsOf : LLMResponse → Except String (List AgentAction))
    (exec : AgentAction → ActionResult) (gen : Nat → String → LLMResponse)
    (task : String) (maxIterations : Nat) : RunResult :=
  agentRunAux actionsOf exec gen maxIterations maxIterations 0 task [("user", task)] []

/-- The `error` member of an MCP response (src/agenticAI/mcp/protocol.py):
a dict with an integer `code` and a `message` (the message is whatever
value the server puts there, a string in every source path but the
tool-error path, which forwards the tool dict's `error` value). -/
structure MCPError where
  code : Int
  message : JsonVal

/-- `MCPRequest` from src/agenticAI/mcp/protocol.py. -/
structure MCPRequest where
  jsonrpc : String := "2.0"
  id : Option String := none
  method : String
  params : List (String × JsonVal) := []

/-- `MCPResponse` from src/agenticAI/mcp/protocol.py. -/
structure MCPResponse where
  jsonrpc : String := "2.0"
  id : Option String := none
  result : Option JsonVal := none
  error : Option MCPError := none

/-- `MCPResource` from src/agenticAI/mcp/protocol.py. -/
structure MCPResource where
  uri : String
  name : String
  description : Option String
  mimeType : Option String

/-- `MCPTool` from src/agenticAI/mcp/protocol.py. -/
structure MCPTool where
  name : String
  description : String
  inputSchema : List (String × JsonVal)

/-- `MCPServer` state from src/agenticAI/mcp/server.py lines 11-14. -/
structure MCPServer where
  tool_registry : Option ToolRegistry
  resources : List MCPResource
  tools : List MCPTool

/-- Optional string fields serialize to JSON null when `None`. -/
def optStrToJson : Option String → JsonVal
  | some s => JsonVal.str s
  | none => JsonVal.null

/-- `MCPResource.dict()` (pydantic serialization). -/
def mcpResourceToJson (r : MCPResource) : JsonVal :=
  JsonVal.obj [("uri", JsonVal.str r.uri), ("name", JsonVal.str r.name),
    ("description", optStrToJson r.description), ("mimeType", optStrToJson r.mimeType)]

/-- `MCPTool.dict()` (pydantic serialization). -/
def mcpToolToJson (t : MCPTool) : JsonVal :=
  JsonVal.obj [("name", JsonVal.str t.name), ("description", JsonVal.str t.description),
    ("inputSchema", JsonVal.obj t.inputSchema)]

/-- The fixed payload returned for `initialize` (server.py lines 28-42). -/
def initPayload : JsonVal :=
  JsonVal.obj [("protocolVersion", JsonVal.str "2024-11-05"),
    ("capabilities", JsonVal.obj [("resources", JsonVal.obj []), ("tools", JsonVal.obj [])]),
    ("serverInfo", JsonVal.obj [("name", JsonVal.str "coding-agent"),
      ("version", JsonVal.str "1.0.0")])]

/-- The response `MCPServer._handle_tool_call` (server.py lines 78-90)
builds once the registry call has returned its result dict: success
truthiness selects between the text content block and the -32603 error
carrying the dict's `error` value. -/
def toolCallResponse (request : MCPRequest)
    (result : List (String × JsonVal)) : MCPResponse :=
  if pyTruthy (dictGet result "success") then
    { id := request.id,
      result := some (JsonVal.obj [("content", JsonVal.arr
        [JsonVal.obj [("type", JsonVal.str "text"),
          ("text", JsonVal.str (pyShow (dictGet result "result")))]])]) }
  else
    { id := request.id,
      error := some ⟨-32603,
        (dictGet result "error").getD (JsonVal.str "Tool execution failed")⟩ }

/-- `MCPServer._handle_tool_call` (server.py lines 64-90).  The call
`self.tool_registry.execute_tool(tool_name, **arguments)` at line 76 can
raise a TypeError that nothing in the server catches (the `Except.error`
cases): when the `"arguments"` param is present and not a mapping (at
the `**` unpacking); when it is a mapping containing the key "self" or
"name", which collides with `execute_tool`'s bound-method and positional
parameters during call binding (CPython reports the colliding parameter
by name; one message stands for both here); and when the `"name"` param
is unhashable, raising inside `execute_tool` before its `try` (mappings
with non-string keys, which would also raise, are not representable:
`JsonVal.obj` keys are `String`). -/
def handleToolCall (server : MCPServer) (request : MCPRequest) :
    Except String MCPResponse :=
  match server.tool_registry with
  | none =>
    Except.ok { id := request.id,
                error := some ⟨-32603, JsonVal.str "Tool registry not available"⟩ }
  | some reg =>
    match (dictGet request.params "arguments").getD (JsonVal.obj []) with
    | JsonVal.obj kwargs =>
      if (dictGet kwargs "self").isSome || (dictGet kwargs "name").isSome then
        Except.error "TypeError: execute_tool() got multiple values for an argument"
      else
        match execute_tool reg (dictGet request.params "name") kwargs with
        | Except.error e => Except.error e
        | Except.ok result => Except.ok (toolCallResponse request result)
    | _ => Except.error "TypeError: argument after ** must be a mapping"

/-- `MCPServer.handle_request` (server.py lines 24-62): dispatch on the
method name; only the `tools/call` branch can raise. -/
def handle_request (server : MCPServer) (request : MCPRequest) :
    Except String MCPResponse :=
  if request.method = "initialize" then
    Except.ok { id := request.id, result := some initPayload }
  else if request.method = "resources/list" then
    Except.ok { id := request.id,
                result := some (JsonVal.obj [("resources",
                  JsonVal.arr (server.resources.map mcpResourceToJson))]) }
  else if request.method = "tools/list" then
    Except.ok { id := request.id,
                result := some (JsonVal.obj [("tools",
                  JsonVal.arr (server.tools.map mcpToolToJson))]) }
  else if request.method = "tools/call" then handleToolCall server request
  else
    Except.ok { id := request.id,
                error := some ⟨-32601,
                  JsonVal.str ("Method not found: " ++ request.method)⟩ }

/-- `MCPClient` state from src/agenticAI/mcp/client.py lines 12-22.  The
transport, when injected, is an object whose `send` maps the request to
a response dict (a class instance, hence always truthy). -/
structure MCPClient where
  server_url : Option String
  transport : Option (MCPRequest → List (String × JsonVal))
  request_id_counter : Nat

/-- `MCPClient.send_request` (client.py lines 81-90).  The branch guards
are Python truthiness tests, so an empty `server_url` string falls
through to the `ValueError` (`Except.error`). -/
def send_request (c : MCPClient) (request : MCPRequest) :
    Except String (List (String × JsonVal)) :=
  match c.transport with
  | some t => Except.ok (t request)
  | none =>
    match c.server_url with
    | some u =>
      if u = "" then Except.error "No transport or server URL configured"
      else Except.ok [("result", JsonVal.null),
        ("error", JsonVal.str "HTTP transport not implemented")]
    | none => Except.error "No transport or server URL configured"

/-- One convenience-method call on `MCPClient` (client.py lines 24-79). -/
inductive ClientCall where
  | initConn
  | listResources
  | readResource (uri : String)
  | listTools
  | callTool (name : String) (arguments : List (String × JsonVal))

/-- `MCPClient._next_id` (client.py lines 92-95): increment the counter
and return it stringified, together with the updated client. -/
def nextId (c : MCPClient) : String × MCPClient :=
  (toString (c.request_id_counter + 1),
   { c with request_id_counter := c.request_id_counter + 1 })

/-- The request constructed by each convenience method of `MCPClient`
(client.py lines 24-79): a fixed method string, the method's params and
a freshly allocated id. -/
def buildRequest (c : MCPClient) (call : ClientCall) : MCPRequest × MCPClient :=
  match call with
  | ClientCall.initConn =>
    ({ id := some (nextId c).1, method := "initialize",
       params := [("protocolVersion", JsonVal.str "2024-11-05"),
         ("capabilities", JsonVal.obj []),
         ("clientInfo", JsonVal.obj [("name", JsonVal.str "coding-agent"),
           ("version", JsonVal.str "1.0.0")])] }, (nextId c).2)
  | ClientCall.listResources =>
    ({ id := some (nextId c).1, method := "resources/list" }, (nextId c).2)
  | ClientCall.readResource uri =>
    ({ id := some (nextId c).1, method := "resources/read",
       params := [("uri", JsonVal.str uri)] }, (nextId c).2)
  | ClientCall.listTools =>
    ({ id := some (nextId c).1, method := "tools/list" }, (nextId c).2)
  | ClientCall.callTool name arguments =>
    ({ id := some (nextId c).1, method := "tools/call",
       params := [("name", JsonVal.str name),
         ("arguments", JsonVal.obj arguments)] }, (nextId c).2)

/-- The sequence of requests a client issues for a sequence of
convenience-method calls, threading the id counter. -/
def issuedRequests (c : MCPClient) : List ClientCall → List MCPRequest
  | [] => []
  | call :: rest =>
    (buildRequest c call).1 :: issuedRequests (buildRequest c call).2 rest

/-- The dict lookup by a `None` name never matches a string-keyed
registry, so `execute_tool` reports the f-string rendering of `None`. -/
lemma execute_tool_none_name (reg : ToolRegistry) (kwargs : List (String × JsonVal)) :
    execute_tool reg none kwargs =
      Except.ok [("success", JsonVal.bool false),
        ("error", JsonVal.str "Tool \x27None\x27 not found")] := rfl

/-- For a hashable name value `execute_tool` always returns a result
dict: the only raise before its `try` is the unhashable-key lookup. -/
lemma execute_tool_hashable_ok (reg : ToolRegistry) (name : Option JsonVal)
    (kwargs : List (String × JsonVal))
    (h : ∀ v, name = some v → pyHashable v = true) :
    ∃ d, execute_tool reg name kwargs = Except.ok d := by
  match name with
  | none => exact ⟨_, rfl⟩
  | some (JsonVal.null) => exact ⟨_, rfl⟩
  | some (JsonVal.bool b) => exact ⟨_, rfl⟩
  | some (JsonVal.num n) => exact ⟨_, rfl⟩
  | some (JsonVal.str t) =>
    have hl : toolLookup reg (some (JsonVal.str t)) = Except.ok (getTool reg t) := rfl
    cases hgt : getTool reg t with
    | none =>
      exact ⟨[("success", JsonVal.bool false),
        ("error", JsonVal.str ("Tool \x27" ++ pyShow (some (JsonVal.str t)) ++
          "\x27 not found"))],
        by unfold execute_tool; rw [hl, hgt]⟩
    | some tool =>
      have h2 : execute_tool reg (some (JsonVal.str t)) kwargs =
          (match tool.execute kwargs with
           | Except.ok d => Except.ok d
           | Except.error e =>
             Except.ok [("success", JsonVal.bool false),
               ("error", JsonVal.str ("Tool execution failed: " ++ e))]) := by
        unfold execute_tool
        rw [hl, hgt]
      cases hex : tool.execute kwargs with
      | ok d => exact ⟨d, by rw [h2, hex]⟩
      | error e =>
        exact ⟨[("success", JsonVal.bool false),
          ("error", JsonVal.str ("Tool execution failed: " ++ e))], by rw [h2, hex]⟩
  | some (JsonVal.arr xs) => exact absurd (h (JsonVal.arr xs) rfl) (by simp [pyHashable])
  | some (JsonVal.obj kvs) => exact absurd (h (JsonVal.obj kvs) rfl) (by simp [pyHashable])

/-- C4: `ToolRegistry.execute_tool` never raises for a string name
(`Except.ok` in the model); an unregistered name yields `success=false`
with the not-found message, and a handler that raises with message m
yields `success=false` with "Tool execution failed: m". -/
theorem c4_execute_tool_total (reg : ToolRegistry) (name : String)
    (kwargs : List (String × JsonVal)) :
    (getTool reg name = none →
      execute_tool reg (some (JsonVal.str name)) kwargs =
        Except.ok [("success", JsonVal.bool false),
          ("error", JsonVal.str ("Tool \x27" ++ name ++ "\x27 not found"))]) ∧
    (∀ t m, getTool reg name = some t → t.execute kwargs = Except.error m →
      execute_tool reg (some (JsonVal.str name)) kwargs =
        Except.ok [("success", JsonVal.bool false),
          ("error", JsonVal.str ("Tool execution failed: " ++ m))]) := by
  constructor
  · intro h
    simp [execute_tool, toolLookup, h, pyShow, pyStr]
  · intro t m ht hm
    simp [execute_tool, toolLookup, ht, hm]

/-- Witness for C4: an empty registry rejects "frobnicate", and a
registered handler that raises "kaput" is reported as a failure dict. -/
theorem c4_execute_tool_total_witness :
    execute_tool [] (some (JsonVal.str "frobnicate")) [] =
      Except.ok [("success", JsonVal.bool false),
        ("error", JsonVal.str "Tool \x27frobnicate\x27 not found")] ∧
    execute_tool [("boom", ⟨"boom", fun _ => Except.error "kaput"⟩)]
        (some (JsonVal.str "boom")) [] =
      Except.ok [("success", JsonVal.bool false),
        ("error", JsonVal.str "Tool execution failed: kaput")] :=
  ⟨(c4_execute_tool_total [] "frobnicate" []).1 rfl,
   (c4_execute_tool_total [("boom", ⟨"boom", fun _ => Except.error "kaput"⟩)] "boom" []).2
     ⟨"boom", fun _ => Except.error "kaput"⟩ "kaput" rfl rfl⟩

/-- C5: a response carrying a structured function call yields exactly one
`ToolCall` action named after the call, with parameters the JSON parse of
the argument payload when that parse is an object, and the empty mapping
(with no error raised) when the payload fails to parse. -/
theorem c5_function_call_single_toolcall
    (parse : String → Option JsonVal)
    (mkAction : List (String × JsonVal) → Option AgentAction)
    (content : String) (fc : FunctionCall) :
    (∀ kvs, parse (fc.arguments.getD "\x7b\x7d") = some (JsonVal.obj kvs) →
      generateFromLLMResponse parse mkAction ⟨content, some fc⟩ =
        Except.ok [{ type := ActionType.tool_call, name := fc.name, parameters := kvs,
                     description := some ("Call tool: " ++ fc.name), metadata := [] }]) ∧
    (parse (fc.arguments.getD "\x7b\x7d") = none →
      generateFromLLMResponse parse mkAction ⟨content, some fc⟩ =
        Except.ok [{ type := ActionType.tool_call, name := fc.name, parameters := [],
                     description := some ("Call tool: " ++ fc.name), metadata := [] }]) := by
  constructor
  · intro kvs h
    simp [generateFromLLMResponse, h]
  · intro h
    simp [generateFromLLMResponse, h]

/-- Witness for C5: an absent arguments key defaults to the payload
"\x7b\x7d", whose parse supplies the parameters; an unparseable payload
silently yields empty parameters. -/
theorem c5_function_call_single_toolcall_witness :
    generateFromLLMResponse
        (fun s => if s = "\x7b\x7d" then some (JsonVal.obj [("path", JsonVal.str "a.py")])
                  else none)
        (fun _ => none) ⟨"", some ⟨"read_file", none⟩⟩ =
      Except.ok [{ type := ActionType.tool_call, name := "read_file",
                   parameters := [("path", JsonVal.str "a.py")],
                   description := some "Call tool: read_file", metadata := [] }] ∧
    generateFromLLMResponse (fun _ => none) (fun _ => none)
        ⟨"", some ⟨"write_file", some "oops"⟩⟩ =
      Except.ok [{ type := ActionType.tool_call, name := "write_file", parameters := [],
                   description := some "Call tool: write_file", metadata := [] }] :=
  ⟨(c5_function_call_single_toolcall
      (fun s => if s = "\x7b\x7d" then some (JsonVal.obj [("path", JsonVal.str "a.py")])
                else none)
      (fun _ => none) "" ⟨"read_file", none⟩).1 [("path", JsonVal.str "a.py")] rfl,
   (c5_function_call_single_toolcall (fun _ => none) (fun _ => none)
      "" ⟨"write_file", some "oops"⟩).2 rfl⟩

/-- C6: any request whose method is none of initialize, resources/list,
tools/list, tools/call receives error code -32601 with message
"Method not found: method" and no result, and the dispatch does not
raise. -/
theorem c6_unknown_method_error (server : MCPServer) (request : MCPRequest) :
    request.method ≠ "initialize" → request.method ≠ "resources/list" →
    request.method ≠ "tools/list" → request.method ≠ "tools/call" →
    handle_request server request =
      Except.ok { id := request.id,
                  error := some ⟨-32601,
                    JsonVal.str ("Method not found: " ++ request.method)⟩ } := by
  intro h1 h2 h3 h4
  simp [handle_request, h1, h2, h3, h4]

/-- Witness for C6 at the concrete unknown method "frobnicate". -/
theorem c6_unknown_method_error_witness :
    handle_request ⟨none, [], []⟩ ⟨"2.0", some "7", "frobnicate", []⟩ =
      Except.ok { id := some "7",
                  error := some ⟨-32601, JsonVal.str "Method not found: frobnicate"⟩ } :=
  c6_unknown_method_error ⟨none, [], []⟩ ⟨"2.0", some "7", "frobnicate", []⟩
    (by decide) (by decide) (by decide) (by decide)

/-- Every convenience method allocates its id from the shared counter. -/
lemma buildRequest_id (c : MCPClient) (call : ClientCall) :
    (buildRequest c call).1.id = some (toString (c.request_id_counter + 1)) := by
  cases call <;> rfl

/-- Every convenience method advances the counter by exactly one. -/
lemma buildRequest_counter (c : MCPClient) (call : ClientCall) :
    (buildRequest c call).2 = { c with request_id_counter := c.request_id_counter + 1 } := by
  cases call <;> rfl

/-- Ids issued from any starting counter value are the successive
stringified integers. -/
lemma issuedRequests_ids : ∀ (calls : List ClientCall) (c : MCPClient),
    (issuedRequests c calls).map MCPRequest.id =
      (List.range calls.length).map
        (fun n => some (toString (c.request_id_counter + n + 1)))
  | [], _ => by simp [issuedRequests]
  | call :: rest, c => by
    simp only [issuedRequests, List.map_cons, buildRequest_id, buildRequest_counter]
    rw [issuedRequests_ids rest]
    simp only [List.length_cons, List.range_succ_eq_map, List.map_cons, List.map_map]
    refine congrArg₂ _ (by simp) ?_
    refine List.map_congr_left ?_
    intro n _
    simp only [Function.comp_apply]
    congr 2
    omega

/-- C7: a single client instance issues request ids "1", "2", "3", ... in
call order, whatever the mix of initialize, resources/list,
resources/read, tools/list and tools/call convenience methods. -/
theorem c7_request_ids_sequential (surl : Option String)
    (tr : Option (MCPRequest → List (String × JsonVal))) (calls : List ClientCall) :
    (issuedRequests ⟨surl, tr, 0⟩ calls).map MCPRequest.id =
      (List.range calls.length).map (fun n => some (toString (n + 1))) := by
  rw [issuedRequests_ids]
  simp

/-- C8 (amended): `send_request` raises ValueError exactly when transport
is absent and server_url is absent or empty; a non-empty server_url with
no transport yields the fixed placeholder mapping for every request; an
injected transport is always used. -/
theorem c8_send_request_outcomes (c : MCPClient) (request : MCPRequest) :
    (c.transport = none → c.server_url = none →
      send_request c request = Except.error "No transport or server URL configured") ∧
    (c.transport = none → c.server_url = some "" →
      send_request c request = Except.error "No transport or server URL configured") ∧
    (∀ u, c.transport = none → c.server_url = some u → u ≠ "" →
      send_request c request =
        Except.ok [("result", JsonVal.null),
          ("error", JsonVal.str "HTTP transport not implemented")]) ∧
    (∀ t, c.transport = some t → send_request c request = Except.ok (t request)) := by
  refine ⟨?_, ?_, ?_, ?_⟩
  · intro ht hu; simp [send_request, ht, hu]
  · intro ht hu; simp [send_request, ht, hu]
  · intro u ht hu hne; simp [send_request, ht, hu, hne]
  · intro t ht; simp [send_request, ht]

/-- Counterexample for C8: a client whose server_url is set (to the empty
string) and has no transport still raises, because the branch guard is a
Python truthiness test. -/
theorem c8_counterexample_empty_url_raises :
    (MCPClient.mk (some "") none 0).server_url ≠ none ∧
    send_request ⟨some "", none, 0⟩ ⟨"2.0", some "1", "initialize", []⟩ =
      Except.error "No transport or server URL configured" :=
  ⟨by simp, rfl⟩

/-- Witness for C8: with a non-empty server_url and no transport the
fixed placeholder mapping comes back. -/
theorem c8_send_request_outcomes_witness :
    send_request ⟨some "http://localhost", none, 0⟩ ⟨"2.0", some "1", "tools/list", []⟩ =
      Except.ok [("result", JsonVal.null),
        ("error", JsonVal.str "HTTP transport not implemented")] :=
  (c8_send_request_outcomes ⟨some "http://localhost", none, 0⟩
    ⟨"2.0", some "1", "tools/list", []⟩).2.2.1 "http://localhost" rfl rfl (by decide)

/-- C10: a response with no structured call whose content parses as a
JSON array, or as a JSON object lacking the "type" key, never becomes an
action built from the parsed structure (the pydantic constructor
`mkAction` is never consulted, for any `mkAction`): the generator falls
through to exactly one LLM_GENERATE action whose parameters carry the raw
content verbatim under "content". -/
theorem c10_content_json_fallthrough
    (parse : String → Option JsonVal)
    (mkAction : List (String × JsonVal) → Option AgentAction)
    (response : LLMResponse) (v : JsonVal) :
    response.functionCall = none →
    response.content ≠ "" →
    parse response.content.trim = some v →
    ((∃ xs, v = JsonVal.arr xs) ∨
     (∃ kvs, v = JsonVal.obj kvs ∧ dictGet kvs "type" = none)) →
    generateFromLLMResponse parse mkAction response =
      Except.ok [{ type := ActionType.llm_generate, name := "generate",
                   parameters := [("content", JsonVal.str response.content)],
                   description := some "LLM generated content", metadata := [] }] := by
  obtain ⟨content, functionCall⟩ := response
  intro hfc hc hp hv
  subst hfc
  have hparsed : parseActionFromContent parse mkAction content = none := by
    unfold parseActionFromContent
    by_cases hs : (content.trim.startsWith "\x7b" || content.trim.startsWith "[") = true
    · rw [if_pos hs]
      simp only at hp
      rw [hp]
      rcases hv with ⟨xs, rfl⟩ | ⟨kvs, rfl, hnone⟩
      · rfl
      · simp [hnone]
    · rw [if_neg hs]
  simp only [generateFromLLMResponse]
  rw [if_neg (by simpa using hc), hparsed]

/-- Witness for C10 at content "[]" parsing as the empty JSON array. -/
theorem c10_content_json_fallthrough_witness :
    generateFromLLMResponse (fun _ => some (JsonVal.arr []))
        (fun _ => none) ⟨"[]", none⟩ =
      Except.ok [{ type := ActionType.llm_generate, name := "generate",
                   parameters := [("content", JsonVal.str "[]")],
                   description := some "LLM generated content", metadata := [] }] :=
  c10_content_json_fallthrough (fun _ => some (JsonVal.arr []))
    (fun _ => none) ⟨"[]", none⟩ (JsonVal.arr []) rfl (by decide) rfl
    (Or.inl ⟨[], rfl⟩)

/-- When the batch's first finish action sits at position k, the inner
action loop executes exactly actions 0..k (the finish included) and
signals the early return. -/
lemma execActions_first_finish (exec : AgentAction → ActionResult) :
    ∀ (actions : List AgentAction) (k : Nat) (hk : k < actions.length),
      (actions.get ⟨k, hk⟩).type = ActionType.finish →
      (∀ j (hj : j < actions.length), j < k →
        (actions.get ⟨j, hj⟩).type ≠ ActionType.finish) →
      execActions exec actions = ((actions.take (k + 1)).map (fun a => (a, exec a)), true)
  | [], k, hk, _, _ => absurd hk (by simp)
  | a :: rest, 0, _, hfin, _ => by
    simp only [List.get] at hfin
    simp [execActions, hfin]
  | a :: rest, k + 1, hk, hfin, hbefore => by
    have h0 : a.type ≠ ActionType.finish := by
      have := hbefore 0 (by simp) (by omega)
      simpa using this
    have hk' : k < rest.length := by simpa using hk
    have hfin' : (rest.get ⟨k, hk'⟩).type = ActionType.finish := by
      simpa using hfin
    have hbefore' : ∀ j (hj : j < rest.length), j < k →
        (rest.get ⟨j, hj⟩).type ≠ ActionType.finish := by
      intro j hj hjk
      have := hbefore (j + 1) (by simpa using Nat.succ_lt_succ hj) (by omega)
      simpa using this
    have ih := execActions_first_finish exec rest k hk' hfin' hbefore'
    simp [execActions, h0, ih]

/-- A batch with no finish action is executed in full and does not signal
the early return. -/
lemma execActions_no_finish (exec : AgentAction → ActionResult) :
    ∀ (actions : List AgentAction), (∀ a ∈ actions, a.type ≠ ActionType.finish) →
      execActions exec actions = (actions.map (fun a => (a, exec a)), false)
  | [], _ => rfl
  | a :: rest, h => by
    have h0 : a.type ≠ ActionType.finish := h a (by simp)
    have ih := execActions_no_finish exec rest (fun b hb => h b (by simp [hb]))
    simp [execActions, h0, ih]

/-- C1 (amended): a run in which the generator returns zero actions on
some iteration stops at that iteration with the accumulated results
unchanged; it reports success=true and "Task completed" when that
iteration is strictly before max_iterations, but success=false and
"Reached max iterations" when the zero-action iteration is the last one
permitted (the loop-exit return computes `success = iterations <
max_iterations` with no exception for the no-actions path). -/
theorem c1_zero_actions_iteration_outcome
    (actionsOf : LLMResponse → Except String (List AgentAction))
    (exec : AgentAction → ActionResult) (gen : Nat → String → LLMResponse)
    (maxIterations fuel iterations : Nat) (task : String)
    (history : List (String × String)) (results : List RunEntry) :
    iterations + fuel + 1 = maxIterations →
    actionsOf (gen (iterations + 1)
      (if iterations + 1 = 1 then task else buildContext history)) = Except.ok [] →
    (agentRunAux actionsOf exec gen maxIterations (fuel + 1) iterations
        task history results).iterations = iterations + 1 ∧
    (agentRunAux actionsOf exec gen maxIterations (fuel + 1) iterations
        task history results).results = results ∧
    (0 < fuel →
      (agentRunAux actionsOf exec gen maxIterations (fuel + 1) iterations
          task history results).success = true ∧
      (agentRunAux actionsOf exec gen maxIterations (fuel + 1) iterations
          task history results).message = some "Task completed") ∧
    (fuel = 0 →
      (agentRunAux actionsOf exec gen maxIterations (fuel + 1) iterations
          task history results).success = false ∧
      (agentRunAux actionsOf exec gen maxIterations (fuel + 1) iterations
          task history results).message = some "Reached max iterations") := by
  intro hmax hzero
  have hstep : agentRunAux actionsOf exec gen maxIterations (fuel + 1) iterations
      task history results = exitResult maxIterations (iterations + 1) results := by
    simp only [agentRunAux]
    rw [hzero]
    simp
  rw [hstep]
  subst hmax
  refine ⟨rfl, rfl, ?_, ?_⟩
  · intro hf
    constructor
    · simp only [exitResult]
      simp only [decide_eq_true_eq]
      omega
    · simp only [exitResult]
      rw [if_neg (by omega)]
  · intro hf
    subst hf
    constructor
    · simp only [exitResult]
      simp only [decide_eq_false_iff_not]
      omega
    · simp only [exitResult]
      rw [if_pos (by omega)]

/-- Witness for C1 (amended): with max_iterations = 2, a first iteration
with zero actions ends the run with success=true and "Task completed". -/
theorem c1_zero_actions_witness :
    (agentRunAux (generateFromLLMResponse (fun _ => none) (fun _ => none))
        (fun _ => ⟨true, JsonVal.null, none, []⟩) (fun _ _ => ⟨"", none⟩)
        2 2 0 "t" [("user", "t")] []).success = true ∧
    (agentRunAux (generateFromLLMResponse (fun _ => none) (fun _ => none))
        (fun _ => ⟨true, JsonVal.null, none, []⟩) (fun _ _ => ⟨"", none⟩)
        2 2 0 "t" [("user", "t")] []).message = some "Task completed" :=
  (c1_zero_actions_iteration_outcome
    (generateFromLLMResponse (fun _ => none) (fun _ => none))
    (fun _ => ⟨true, JsonVal.null, none, []⟩) (fun _ _ => ⟨"", none⟩)
    2 1 0 "t" [("user", "t")] [] rfl rfl).2.2.1 (by decide)

/-- Counterexample for C1 as stated: with max_iterations = 1 and a
generation service whose response has no content and no function call
(so the real action generator returns zero actions on iteration 1), the
run reports success=false and "Reached max iterations", not task
completion. -/
theorem c1_counterexample_zero_actions_at_cap :
    (agentRun (generateFromLLMResponse (fun _ => none) (fun _ => none))
        (fun _ => ⟨true, JsonVal.null, none, []⟩) (fun _ _ => ⟨"", none⟩)
        "t" 1).success = false ∧
    (agentRun (generateFromLLMResponse (fun _ => none) (fun _ => none))
        (fun _ => ⟨true, JsonVal.null, none, []⟩) (fun _ _ => ⟨"", none⟩)
        "t" 1).message = some "Reached max iterations" ∧
    (agentRun (generateFromLLMResponse (fun _ => none) (fun _ => none))
        (fun _ => ⟨true, JsonVal.null, none, []⟩) (fun _ _ => ⟨"", none⟩)
        "t" 1).iterations = 1 :=
  ⟨rfl, rfl, rfl⟩

/-- C2 (amended): when the batch's first finish action sits at position
k, the run executes actions 0..k inclusive and none after k, and returns
immediately — whatever the iteration count or cap — with success=true,
final_message the generation response's raw content, and one
(action, result) entry appended per executed action, the finish action's
entry included. -/
theorem c2_finish_halts_batch
    (actionsOf : LLMResponse → Except String (List AgentAction))
    (exec : AgentAction → ActionResult) (gen : Nat → String → LLMResponse)
    (maxIterations fuel iterations : Nat) (task : String)
    (history : List (String × String)) (results : List RunEntry)
    (actions : List AgentAction) (k : Nat) (hk : k < actions.length) :
    actionsOf (gen (iterations + 1)
      (if iterations + 1 = 1 then task else buildContext history)) = Except.ok actions →
    (actions.get ⟨k, hk⟩).type = ActionType.finish →
    (∀ j (hj : j < actions.length), j < k →
      (actions.get ⟨j, hj⟩).type ≠ ActionType.finish) →
    agentRunAux actionsOf exec gen maxIterations (fuel + 1) iterations
        task history results =
      { success := true
        iterations := iterations + 1
        results := results ++ (actions.take (k + 1)).map
          (fun a => RunEntry.actionResult a (exec a))
        finalMessage := some (gen (iterations + 1)
          (if iterations + 1 = 1 then task else buildContext history)).content
        message := none } := by
  intro ha hfin hbefore
  have hne : actions ≠ [] := by
    intro h
    subst h
    exact absurd hk (by simp)
  have hexec := execActions_first_finish exec actions k hk hfin hbefore
  simp only [agentRunAux]
  rw [ha]
  simp [hne, hexec, entriesOf, List.map_map, Function.comp_def]

/-- Witness for C2 (amended) at the singleton batch [Finish]: its single
entry is appended and the run returns with the response content. -/
theorem c2_finish_halts_batch_witness :
    agentRunAux (fun _ => Except.ok [⟨ActionType.finish, "finish", [], none, []⟩])
        (fun _ => ⟨true, JsonVal.null, none, []⟩) (fun _ _ => ⟨"done", none⟩)
        5 5 0 "t" [("user", "t")] [] =
      { success := true
        iterations := 1
        results := [RunEntry.actionResult ⟨ActionType.finish, "finish", [], none, []⟩
          ⟨true, JsonVal.null, none, []⟩]
        finalMessage := some "done"
        message := none } :=
  c2_finish_halts_batch (fun _ => Except.ok [⟨ActionType.finish, "finish", [], none, []⟩])
    (fun _ => ⟨true, JsonVal.null, none, []⟩) (fun _ _ => ⟨"done", none⟩)
    5 4 0 "t" [("user", "t")] [] [⟨ActionType.finish, "finish", [], none, []⟩]
    0 (by decide) rfl rfl (by intro j hj hjk; omega)

/-- Counterexample for C2 as stated: for the batch [ToolCall(A), Finish]
the returned results list holds two entries — A's result followed by the
finish action's own (action, result) pair — not "exactly A's result". -/
theorem c2_counterexample_finish_result_included :
    (agentRun (fun _ => Except.ok [⟨ActionType.tool_call, "A", [], none, []⟩,
        ⟨ActionType.finish, "finish", [], none, []⟩])
      (fun _ => ⟨true, JsonVal.null, none, []⟩) (fun _ _ => ⟨"raw", none⟩)
      "t" 3).results.length = 2 ∧
    (agentRun (fun _ => Except.ok [⟨ActionType.tool_call, "A", [], none, []⟩,
        ⟨ActionType.finish, "finish", [], none, []⟩])
      (fun _ => ⟨true, JsonVal.null, none, []⟩) (fun _ _ => ⟨"raw", none⟩)
      "t" 3).results ≠
      [RunEntry.actionResult ⟨ActionType.tool_call, "A", [], none, []⟩
        ⟨true, JsonVal.null, none, []⟩] := by
  constructor
  · rfl
  · have hres : (agentRun (fun _ => Except.ok [⟨ActionType.tool_call, "A", [], none, []⟩,
        ⟨ActionType.finish, "finish", [], none, []⟩])
      (fun _ => ⟨true, JsonVal.null, none, []⟩) (fun _ _ => ⟨"raw", none⟩)
      "t" 3).results =
      [RunEntry.actionResult ⟨ActionType.tool_call, "A", [], none, []⟩
        ⟨true, JsonVal.null, none, []⟩,
       RunEntry.actionResult ⟨ActionType.finish, "finish", [], none, []⟩
        ⟨true, JsonVal.null, none, []⟩] := rfl
    rw [hres]
    simp


/-- When every iteration's generated batch is non-empty and free of
finish actions, the loop consumes all its fuel and exits through the
loop-exit return with `iterations` advanced by the fuel. -/
lemma agentRunAux_no_finish
    (actionsOf : LLMResponse → Except String (List AgentAction))
    (exec : AgentAction → ActionResult) (gen : Nat → String → LLMResponse)
    (maxIterations : Nat)
    (H : ∀ n prompt, ∃ acts, actionsOf (gen n prompt) = Except.ok acts ∧ acts ≠ [] ∧
      ∀ a ∈ acts, a.type ≠ ActionType.finish) :
    ∀ (fuel iterations : Nat) (task : String) (history : List (String × String))
      (results : List RunEntry),
      ∃ finalResults,
        agentRunAux actionsOf exec gen maxIterations fuel iterations task history results =
          exitResult maxIterations (iterations + fuel) finalResults
  | 0, iterations, _, _, results => ⟨results, by simp [agentRunAux]⟩
  | fuel + 1, iterations, task, history, results => by
    simp only [agentRunAux]
    generalize hgen : gen (iterations + 1)
      (if iterations + 1 = 1 then task else buildContext history) = response
    obtain ⟨acts, ha, hne, hnf⟩ := H (iterations + 1)
      (if iterations + 1 = 1 then task else buildContext history)
    rw [hgen] at ha
    have hflag : (execActions exec acts).2 = false := by
      rw [execActions_no_finish exec acts hnf]
    obtain ⟨fr, hfr⟩ := agentRunAux_no_finish actionsOf exec gen maxIterations H fuel
      (iterations + 1) (formatResultsForLLM (execActions exec acts).1)
      (history ++ [("assistant", response.content)])
      (results ++ entriesOf (execActions exec acts).1)
    refine ⟨fr, ?_⟩
    rw [ha]
    simp only [List.isEmpty_eq_true, hne, if_false, hflag, Bool.false_eq_true]
    rw [hfr]
    congr 1
    omega

/-- C3: a run in which the generator always yields a non-empty batch
with no finish action (so no early break and no finish return) exits at
the cap with success=false, `iterations = max_iterations` and the
message "Reached max iterations". -/
theorem c3_max_iterations_failure
    (actionsOf : LLMResponse → Except String (List AgentAction))
    (exec : AgentAction → ActionResult) (gen : Nat → String → LLMResponse)
    (task : String) (maxIterations : Nat) :
    (∀ n prompt, ∃ acts, actionsOf (gen n prompt) = Except.ok acts ∧ acts ≠ [] ∧
      ∀ a ∈ acts, a.type ≠ ActionType.finish) →
    (agentRun actionsOf exec gen task maxIterations).success = false ∧
    (agentRun actionsOf exec gen task maxIterations).iterations = maxIterations ∧
    (agentRun actionsOf exec gen task maxIterations).message =
      some "Reached max iterations" := by
  intro H
  obtain ⟨fr, hfr⟩ := agentRunAux_no_finish actionsOf exec gen maxIterations H
    maxIterations 0 task [("user", task)] []
  unfold agentRun
  rw [hfr]
  constructor
  · simp [exitResult]
  constructor
  · simp [exitResult]
  · simp only [exitResult, Nat.zero_add]
    rw [if_pos (by omega)]

/-- Witness for C3 at scenario D: max_iterations = 1 with a generation
service that always produces a structured non-finish tool call (parsed
through the real generator) ends with success=false, iterations=1,
"Reached max iterations". -/
theorem c3_max_iterations_failure_witness :
    (agentRun (generateFromLLMResponse
          (fun s => if s = "\x7b\x7d" then some (JsonVal.obj []) else none)
          (fun _ => none))
        (fun _ => ⟨true, JsonVal.null, none, []⟩)
        (fun _ _ => ⟨"x", some ⟨"tool1", none⟩⟩) "t" 1).success = false ∧
    (agentRun (generateFromLLMResponse
          (fun s => if s = "\x7b\x7d" then some (JsonVal.obj []) else none)
          (fun _ => none))
        (fun _ => ⟨true, JsonVal.null, none, []⟩)
        (fun _ _ => ⟨"x", some ⟨"tool1", none⟩⟩) "t" 1).iterations = 1 ∧
    (agentRun (generateFromLLMResponse
          (fun s => if s = "\x7b\x7d" then some (JsonVal.obj []) else none)
          (fun _ => none))
        (fun _ => ⟨true, JsonVal.null, none, []⟩)
        (fun _ _ => ⟨"x", some ⟨"tool1", none⟩⟩) "t" 1).message =
      some "Reached max iterations" :=
  c3_max_iterations_failure (generateFromLLMResponse
      (fun s => if s = "\x7b\x7d" then some (JsonVal.obj []) else none)
      (fun _ => none))
    (fun _ => ⟨true, JsonVal.null, none, []⟩)
    (fun _ _ => ⟨"x", some ⟨"tool1", none⟩⟩) "t" 1
    (by
      intro n prompt
      refine ⟨[{ type := ActionType.tool_call, name := "tool1", parameters := [],
                 description := some "Call tool: tool1", metadata := [] }],
        rfl, by simp, ?_⟩
      intro a ha
      simp only [List.mem_singleton] at ha
      subst ha
      decide)

/-- C9 (amended): a tools/call request on a server with a bound registry
does not raise — yielding either a result or a -32603 error response —
provided the "arguments" param, when present, is a mapping containing
neither a "name" nor a "self" key, and the "name" param, when present,
is hashable (not a JSON array or object); tool handlers honour the
documented dict-return contract.  In particular a params mapping lacking
"name" (with such arguments) yields the registry's not-found text for
the `None` name under code -32603.  Outside those conditions a TypeError
escapes handle_request: a non-mapping "arguments" raises at the `**`
unpacking, a "name"/"self" key in it collides with execute_tool's
parameters at call binding, and an unhashable "name" raises in the
registry's dict lookup before its `try`. -/
theorem c9_tool_call_no_escape
    (server : MCPServer) (reg : ToolRegistry) (request : MCPRequest) :
    server.tool_registry = some reg →
    request.method = "tools/call" →
    (∀ v, dictGet request.params "arguments" = some v →
      ∃ kw, v = JsonVal.obj kw ∧ dictGet kw "name" = none ∧ dictGet kw "self" = none) →
    (∀ v, dictGet request.params "name" = some v → pyHashable v = true) →
    (∃ resp, handle_request server request = Except.ok resp ∧
      ((∃ v, resp.result = some v ∧ resp.error = none) ∨
       (∃ m, resp.result = none ∧ resp.error = some ⟨-32603, m⟩))) ∧
    (dictGet request.params "name" = none →
      handle_request server request =
        Except.ok { id := request.id,
                    error := some ⟨-32603,
                      JsonVal.str "Tool \x27None\x27 not found"⟩ }) := by
  intro hreg hm hargs hname
  have hhr : handle_request server request = handleToolCall server request := by
    simp [handle_request, hm]
  have hkw : ∃ kw, (dictGet request.params "arguments").getD (JsonVal.obj []) =
      JsonVal.obj kw ∧ dictGet kw "name" = none ∧ dictGet kw "self" = none := by
    cases harg : dictGet request.params "arguments" with
    | none => exact ⟨[], rfl, rfl, rfl⟩
    | some v =>
      obtain ⟨kw, rfl, hn, hs⟩ := hargs v harg
      exact ⟨kw, rfl, hn, hs⟩
  obtain ⟨kw, hkw, hkwname, hkwself⟩ := hkw
  have hcall1 : handleToolCall server request =
      (if (dictGet kw "self").isSome || (dictGet kw "name").isSome then
        Except.error "TypeError: execute_tool() got multiple values for an argument"
      else
        match execute_tool reg (dictGet request.params "name") kw with
        | Except.error e => Except.error e
        | Except.ok result => Except.ok (toolCallResponse request result)) := by
    unfold handleToolCall
    rw [hreg, hkw]
  have hcall : handleToolCall server request =
      (match execute_tool reg (dictGet request.params "name") kw with
       | Except.error e => Except.error e
       | Except.ok result => Except.ok (toolCallResponse request result)) := by
    rw [hcall1, if_neg (by simp [hkwname, hkwself])]
  obtain ⟨d, hd⟩ := execute_tool_hashable_ok reg (dictGet request.params "name") kw hname
  constructor
  · refine ⟨toolCallResponse request d, by rw [hhr, hcall, hd], ?_⟩
    by_cases hs : pyTruthy (dictGet d "success") = true
    · left
      simp only [toolCallResponse, hs, if_true]
      exact ⟨_, rfl, by trivial⟩
    · right
      simp only [toolCallResponse, hs, if_false]
      exact ⟨_, by trivial, rfl⟩
  · intro hname0
    rw [hhr, hcall, hname0, execute_tool_none_name]
    rfl

/-- Witness for C9 (amended): a tools/call with empty params (no "name",
no "arguments") against a bound empty registry answers -32603 with
"Tool \x27None\x27 not found" instead of raising. -/
theorem c9_tool_call_no_escape_witness :
    handle_request ⟨some [], [], []⟩ ⟨"2.0", some "1", "tools/call", []⟩ =
      Except.ok { id := some "1",
                  error := some ⟨-32603, JsonVal.str "Tool \x27None\x27 not found"⟩ } :=
  (c9_tool_call_no_escape ⟨some [], [], []⟩ [] ⟨"2.0", some "1", "tools/call", []⟩
    rfl rfl (fun v h => absurd h (by simp [dictGet]))
    (fun v h => absurd h (by simp [dictGet]))).2 rfl

/-- Counterexample for C9 as stated: three tools/call requests against a
bound registry make `handle_request` raise an escaping TypeError — a
non-mapping "arguments" (which also lacks "name", refuting the claim's
first part), a mapping "arguments" carrying the key "name" (colliding
with execute_tool's positional parameter), and an unhashable "name"
param (raising in the registry's dict lookup before its try). -/
theorem c9_counterexample_escaping_typeerrors :
    dictGet [("arguments", JsonVal.num 5)] "name" = none ∧
    handle_request ⟨some [], [], []⟩
        ⟨"2.0", some "1", "tools/call", [("arguments", JsonVal.num 5)]⟩ =
      Except.error "TypeError: argument after ** must be a mapping" ∧
    dictGet [("arguments", JsonVal.obj [("name", JsonVal.str "x")])] "name" = none ∧
    handle_request ⟨some [], [], []⟩
        ⟨"2.0", some "2", "tools/call",
         [("arguments", JsonVal.obj [("name", JsonVal.str "x")])]⟩ =
      Except.error "TypeError: execute_tool() got multiple values for an argument" ∧
    handle_request ⟨some [], [], []⟩
        ⟨"2.0", some "3", "tools/call", [("name", JsonVal.arr [])]⟩ =
      Except.error "TypeError: unhashable type" :=
  ⟨rfl, rfl, rfl, rfl, rfl⟩
